import Mathlib

/-!
# KOLTracker — verification of the behavioral-correlation and scoring core

Shallow embedding of the Go sources of the KOLTracker repository:
* `pkg/analyzer/analyzer.go` — fingerprint builder and wash-score engine,
* `pkg/scanner/deep_tracer.go` — recursive funding tracer,
* the fresh-wallet monitor (`FreshWalletMonitor`) — watch scheduler and
  per-buyer analysis,
* `pkg/dashboard/frontend.go` — the store operations `UpsertWallet`,
  `UpsertWashCandidate` and `UpdateWashScore`.

Conventions of the embedding:
* Go `float64` amounts, fees and scores become `ℚ` (all the arithmetic the
  claims touch is exact at the relevant inputs, so rational arithmetic is a
  faithful model);
* Go `time.Time` / `time.Duration` become `Int` seconds since an arbitrary
  epoch (`time.Since` takes an explicit `now` parameter);
* the SQL store becomes a list of rows, and the chain collaborators
  (`CheckFunding`, `GetRecentTokenBuyers`, …) become explicit functional
  oracles passed as parameters;
* Go map iteration is nondeterministic; where the source iterates a map to
  build a list we iterate an association list in first-insertion order — a
  deterministic refinement of the source that agrees with it on every value
  the claims mention.
-/

namespace KOLTracker

/-! ## Shared helpers (analyzer.go bottom of file) -/

/-- `avg` from analyzer.go: mean of a list, `0` for an empty list. -/
def avg (v : List ℚ) : ℚ :=
  if v.length = 0 then 0 else v.sum / v.length

/-- `safePct` from analyzer.go: `n/t*100`, `0` when `t = 0`. -/
def safePct (n t : Nat) : ℚ :=
  if t = 0 then 0 else (n : ℚ) / (t : ℚ) * 100

/-- Go `math.Round`: round to nearest integer, ties away from zero. -/
def goRound (x : ℚ) : ℚ :=
  if 0 ≤ x then (⌊x + 1/2⌋ : ℤ) else -(⌊-x + 1/2⌋ : ℤ)

/-- `topKey` from analyzer.go: the first key (in iteration order) whose count
is a strict running maximum; `""` and count `0` to start. The Go original
iterates a map in nondeterministic order; we iterate the association list in
insertion order. -/
def topKey (m : List (String × Nat)) : String :=
  (m.foldl (fun best kv => if kv.2 > best.2 then kv else best) ("", 0)).1

/-- Counting occurrences into an association list keyed in first-occurrence
order (deterministic stand-in for a Go `map[...]int` tally). -/
def bumpKey {α : Type} [DecidableEq α] : List (α × Nat) → α → List (α × Nat)
  | [], k => [(k, 1)]
  | (a, c) :: rest, k =>
      if a = k then (a, c + 1) :: rest else (a, c) :: bumpKey rest k

/-- Tally a list of keys in first-occurrence order. -/
def tally {α : Type} [DecidableEq α] (l : List α) : List (α × Nat) :=
  l.foldl bumpKey []

/-- Ascending insertion used by `sortAsc`. -/
def sortedInsert (x : ℚ) : List ℚ → List ℚ
  | [] => [x]
  | y :: ys => if x ≤ y then x :: y :: ys else y :: sortedInsert x ys

/-- `sort.Float64s`: ascending sort. The sorted value list is uniquely
determined by the input multiset, so insertion sort is a faithful embedding. -/
def sortAsc (l : List ℚ) : List ℚ :=
  l.foldr sortedInsert []

/-! ## Analyzer data model (analyzer.go) -/

structure CommonAmount where
  amount : ℚ
  count : Nat
deriving DecidableEq, Repr

/-- `SizePattern` from analyzer.go. The source stores `StdDev = math.Sqrt`
of the mean squared deviation; we keep the pre-square-root value `stdDevSq`
so the structure stays in `ℚ` (no claim mentions the standard deviation). -/
structure SizePattern where
  min : ℚ
  max : ℚ
  mean : ℚ
  median : ℚ
  stdDevSq : ℚ
  p25 : ℚ
  p75 : ℚ
  commonAmounts : List CommonAmount
  buckets : List (String × Nat)
  sampleCount : Nat
deriving DecidableEq, Repr

/-- `GasProfile` from analyzer.go (`stdDevSqFee` stores the pre-`Sqrt`
value, as in `SizePattern`). -/
structure GasProfile where
  avgFee : ℚ
  medianFee : ℚ
  minFee : ℚ
  maxFee : ℚ
  stdDevSqFee : ℚ
  commonFees : List CommonAmount
  usesJito : Bool
  avgJitoTip : ℚ
  sampleCount : Nat
deriving DecidableEq, Repr

/-- The fields of `db.WalletTransaction` the scoring code reads. -/
structure WalletTransaction where
  txType : String
  tokenAddress : String
  tokenSymbol : String
  amountUSD : ℚ
  amountToken : ℚ
  platform : String
  priorityFee : ℚ
  timestamp : Int
deriving DecidableEq, Repr

/-- `db.TokenMention` fields read by the scoring code. -/
structure TokenMention where
  kolID : Int
  tokenAddress : String
  mentionedAt : Int
deriving DecidableEq, Repr

/-- The bucket label switch inside `buildSizePattern`. -/
def bucketLabel (a : ℚ) : String :=
  if a < 50 then "$0-50"
  else if a < 100 then "$50-100"
  else if a < 250 then "$100-250"
  else if a < 500 then "$250-500"
  else if a < 1000 then "$500-1K"
  else if a < 5000 then "$1K-5K"
  else "$5K+"

/-- The rounding key of `buildSizePattern`: nearest whole unit below 100,
nearest 10 at or above 100 (`key := math.Round(a/10)*10; if a < 100 { key =
math.Round(a) }`). -/
def sizeKey (a : ℚ) : ℚ :=
  if a < 100 then goRound a else goRound (a / 10) * 10

/-- Descending-by-count insertion used to model
`sort.Slice(CommonAmounts, Count >)`; stable refinement of the source's
unstable sort (the claims only look at counts and emptiness). -/
def insertByCount (x : CommonAmount) : List CommonAmount → List CommonAmount
  | [] => [x]
  | y :: ys => if y.count < x.count then x :: y :: ys else y :: insertByCount x ys

/-- Sort a common-amount list by descending count. -/
def sortByCountDesc (l : List CommonAmount) : List CommonAmount :=
  l.foldr insertByCount []

/-- `buildSizePattern` from analyzer.go. Callers only invoke it on a
non-empty list (the Go indexes `amounts[0]`/`amounts[n-1]`); on `[]` the
quantile reads fall back to `0` via `getD`. -/
def buildSizePattern (amounts : List ℚ) : SizePattern :=
  let s := sortAsc amounts
  let n := s.length
  let mean := avg s
  let sumSq := (s.map (fun a => (a - mean) * (a - mean))).sum
  let keys := s.map sizeKey
  let common := (tally keys).filterMap
    (fun kc => if 2 ≤ kc.2 then some ⟨kc.1, kc.2⟩ else none)
  let common := sortByCountDesc common
  { min := s.getD 0 0
    max := s.getD (n - 1) 0
    mean := mean
    median := s.getD (n / 2) 0
    stdDevSq := if n = 0 then 0 else sumSq / n
    p25 := s.getD (n / 4) 0
    p75 := s.getD (3 * n / 4) 0
    commonAmounts := common.take 15
    buckets := tally (s.map bucketLabel)
    sampleCount := n }

/-! ## Wash-score engine (analyzer.go, `ScoreWashCandidate` and helpers) -/

/-- The KOL's mentioned-token set used by `scoreTokenOverlap`: tokens with a
mention by this KOL and a non-empty token address. -/
def kolMentionedToken (kolID : Int) (mentions : List TokenMention) (tok : String) : Bool :=
  mentions.any fun m => m.kolID = kolID && m.tokenAddress = tok && m.tokenAddress ≠ ""

/-- `scoreTokenOverlap`: `min(0.1 × overlap, 0.3)` when the candidate bought
at least one KOL-mentioned token, else `0`. -/
def scoreTokenOverlap (kolID : Int) (mentions : List TokenMention)
    (buys : List WalletTransaction) : ℚ :=
  let o := (buys.filter fun b => kolMentionedToken kolID mentions b.tokenAddress).length
  if o = 0 then 0 else min ((o : ℚ) * (1/10)) (3/10)

/-- The mention times `mt[tok]` built by `scoreTimingCorr`. -/
def mentionTimesFor (kolID : Int) (mentions : List TokenMention) (tok : String) : List Int :=
  (mentions.filter fun m => m.kolID = kolID && m.tokenAddress = tok && m.tokenAddress ≠ "").map
    (·.mentionedAt)

/-- `tot` of `scoreTimingCorr`: buys on tokens this KOL has mentioned. -/
def timingTot (kolID : Int) (mentions : List TokenMention)
    (buys : List WalletTransaction) : Nat :=
  (buys.filter fun b => mentionTimesFor kolID mentions b.tokenAddress ≠ []).length

/-- `corr` of `scoreTimingCorr`: buys on mentioned tokens within 2 h
(7200 s) of some mention of that token. -/
def timingCorr (kolID : Int) (mentions : List TokenMention)
    (buys : List WalletTransaction) : Nat :=
  (buys.filter fun b =>
    mentionTimesFor kolID mentions b.tokenAddress ≠ [] ∧
    (mentionTimesFor kolID mentions b.tokenAddress).any
      fun t => (b.timestamp - t).natAbs < 7200).length

/-- `scoreTimingCorr`: contributes `0.2` unless `tot = 0` or the correlated
percentage is `< 50`. -/
def scoreTimingCorr (kolID : Int) (mentions : List TokenMention)
    (buys : List WalletTransaction) : ℚ :=
  let tot := timingTot kolID mentions buys
  let corr := timingCorr kolID mentions buys
  if tot = 0 ∨ safePct corr tot < 50 then 0 else 1/5

/-- `scoreAmount`: `0.15` when the candidate's average buy is within 30 % of
the KOL mean, or at least two buys land within 15 % of a common-amount
cluster. -/
def scoreAmount (buys : List WalletTransaction) (kp : SizePattern) : ℚ :=
  let amts := (buys.filter fun b => 0 < b.amountUSD).map (·.amountUSD)
  if amts.length = 0 ∨ kp.mean = 0 then 0
  else
    let d := |avg amts - kp.mean| / kp.mean * 100
    let cm := (amts.filter fun a =>
      kp.commonAmounts.any fun ka => 0 < ka.amount ∧ |a - ka.amount| / ka.amount < 3/20).length
    if 30 < d ∧ cm < 2 then 0 else 3/20

/-- `scoreDEX`: `0.1` when the candidate's most-used platform equals the
KOL's. -/
def scoreDEX (buys : List WalletTransaction) (kd : List (String × Nat)) : ℚ :=
  let cd := tally ((buys.filter fun b => b.platform ≠ "").map (·.platform))
  if cd = [] ∨ topKey kd ≠ topKey cd then 0 else 1/10

/-- `scoreGas`: `0.15` when the candidate's average priority fee is within
20 % of the KOL's. -/
def scoreGas (buys : List WalletTransaction) (kp : GasProfile) : ℚ :=
  let fees := (buys.filter fun b => 0 < b.priorityFee).map (·.priorityFee)
  if fees.length = 0 ∨ kp.avgFee = 0 then 0
  else
    let d := |avg fees - kp.avgFee| / kp.avgFee * 100
    if 20 < d then 0 else 3/20

/-- `db.WashWalletCandidate` — the fields the core reads and writes. -/
structure WashWalletCandidate where
  address : String
  chain : String
  fundedBy : String
  fundingSourceType : String
  fundingAmount : ℚ
  fundingToken : String
  fundingTx : String
  firstSeen : Option Int
  boughtSameToken : Bool
  timingMatch : Bool
  amountPatternMatch : Bool
  botSignatureMatch : Bool
  confidenceScore : ℚ
  linkedKOLID : Int
  status : String
  notes : String
deriving DecidableEq, Repr

/-- `scoreFunding`: walks the candidate list; the first row matching
`(address, chain)` with a recognized funding-source type yields its weight,
rows with an unrecognized type fall through to the rest of the list. -/
def scoreFunding : List WashWalletCandidate → String → String → ℚ
  | [], _, _ => 0
  | c :: rest, addr, ch =>
      if c.address = addr ∧ c.chain = ch then
        if c.fundingSourceType = "fixedfloat" then 3/10
        else if c.fundingSourceType = "bridge" then 1/5
        else if c.fundingSourceType = "mixer" then 7/20
        else if c.fundingSourceType = "swap_service" then 1/4
        else scoreFunding rest addr ch
      else scoreFunding rest addr ch

/-- `scoreAge`: first matching candidate with a non-zero `first_seen` that is
younger than 24 h gives `0.2`, younger than 7 d gives `0.1`; older matches
fall through to the rest of the list. -/
def scoreAge : List WashWalletCandidate → String → String → Int → ℚ
  | [], _, _, _ => 0
  | c :: rest, addr, ch, now =>
      if c.address = addr ∧ c.chain = ch ∧ c.firstSeen ≠ none then
        match c.firstSeen with
        | some t =>
            if now - t < 86400 then 1/5
            else if now - t < 604800 then 1/10
            else scoreAge rest addr ch now
        | none => scoreAge rest addr ch now
      else scoreAge rest addr ch now

/-- The `if s > 0 { score += s }` accumulation step of `ScoreWashCandidate`. -/
def addSignal (acc s : ℚ) : ℚ :=
  if 0 < s then acc + s else acc

/-- `ScoreWashCandidate` (analyzer.go): the additive capped total. The stored
patterns (`buy_size_range`, `preferred_dex`, `gas_priority`) are `Option`s —
`none` models a pattern key absent from the store, in which case that signal
is skipped, exactly as in the source. -/
def scoreWashTotal (kolID : Int) (mentions : List TokenMention)
    (buys : List WalletTransaction) (bp : Option SizePattern)
    (dp : Option (List (String × Nat))) (gp : Option GasProfile)
    (cands : List WashWalletCandidate) (addr chain : String) (now : Int) : ℚ :=
  let sc := addSignal 0 (scoreTokenOverlap kolID mentions buys)
  let sc := addSignal sc (scoreTimingCorr kolID mentions buys)
  let sc := addSignal sc (match bp with | some p => scoreAmount buys p | none => 0)
  let sc := addSignal sc (match dp with | some d => scoreDEX buys d | none => 0)
  let sc := addSignal sc (match gp with | some g => scoreGas buys g | none => 0)
  let sc := addSignal sc (scoreFunding cands addr chain)
  let sc := addSignal sc (scoreAge cands addr chain now)
  min sc 1

/-! ## Fresh-wallet monitor (`FreshWalletMonitor`) -/

/-- `db.FundingSource` — one inbound funding edge as reported by
`CheckFunding`. -/
structure FundingSource where
  sourceAddress : String
  amount : ℚ
  token : String
  txHash : String
  sourceType : String
  timestamp : Int
deriving DecidableEq, Repr

/-- `db.FundingAnalysis` — the result of `CheckFunding`. -/
structure FundingAnalysis where
  isNewWallet : Bool
  fundingSources : List FundingSource
  firstTxTime : Option Int
  totalFunded : ℚ
  nativeSymbol : String
deriving DecidableEq, Repr

/-- `scanner.TokenBuyer` fields the monitor reads. -/
structure TokenBuyer where
  address : String
  timestamp : Int
  amountUSD : ℚ
deriving DecidableEq, Repr

/-- Signal 1 of `analyzeBuyer`: `0.15` for a brand-new wallet, else the
wallet-age bonus from the first observed transaction (`0.2` under 24 h,
`0.1` under 7 d). -/
def buyerAgeBonus (funding : FundingAnalysis) (now : Int) : ℚ :=
  if funding.isNewWallet then 3/20
  else
    match funding.firstTxTime with
    | some t =>
        if now - t < 86400 then 1/5
        else if now - t < 604800 then 1/10
        else 0
    | none => 0

/-- Signal 2 of `analyzeBuyer`: the funding-source loop adds a weight per
funding edge (`fixedfloat` 0.3, `bridge` 0.2, `mixer` 0.35; other types add
nothing — `analyzeBuyer`'s switch has no `swap_service` case). -/
def buyerFundingStep (acc : ℚ) (s : FundingSource) : ℚ :=
  if s.sourceType = "fixedfloat" then acc + 3/10
  else if s.sourceType = "bridge" then acc + 1/5
  else if s.sourceType = "mixer" then acc + 7/20
  else acc

/-- The funding-source loop of `analyzeBuyer`, folding `buyerFundingStep`
over the funding edges. -/
def buyerFundingBonus (srcs : List FundingSource) : ℚ :=
  srcs.foldl buyerFundingStep 0

/-- Signal 3 of `analyzeBuyer`: timing of the buy relative to the mention,
`timeDiff` in seconds (buy time minus mention time). -/
def buyerTimingBonus (timeDiff : Int) : ℚ :=
  if timeDiff < -60 then 1/4
  else if timeDiff < 0 then 3/20
  else if timeDiff < 30 then 1/5
  else if timeDiff < 300 then 1/20
  else 0

/-- The score computed by `analyzeBuyer` (fresh-buyer analysis), before the
`score < 0.2` persistence cut-off: additive signals capped at `1.0`. -/
def analyzeBuyerScore (funding : FundingAnalysis) (now buyerTs mentionTime : Int) : ℚ :=
  min (buyerAgeBonus funding now + buyerFundingBonus funding.fundingSources +
    buyerTimingBonus (buyerTs - mentionTime)) 1

/-- `analyzeBuyer` persists (candidate upsert, wallet upsert, alert) only
when the score reaches `0.2`. -/
def analyzeBuyerPersisted (funding : FundingAnalysis) (now buyerTs mentionTime : Int) : Bool :=
  ¬ (analyzeBuyerScore funding now buyerTs mentionTime < 1/5)

/-- The per-watch dispatch state of `scanTokenBuyers`: `checked` is the
watch's `Checked` map (seen-set); `dispatched` is a ghost log of the buyer
addresses handed to `go m.analyzeBuyer`, in dispatch order. -/
structure ScanState where
  checked : List String
  dispatched : List String
deriving DecidableEq, Repr

/-- One `scanTokenBuyers` pass over a buyer list: a buyer with an empty
address or already in the seen-set is skipped; otherwise it is marked seen
and then dispatched. -/
def scanStep (st : ScanState) (b : TokenBuyer) : ScanState :=
  if b.address = "" ∨ b.address ∈ st.checked then st
  else { checked := b.address :: st.checked,
         dispatched := st.dispatched ++ [b.address] }

/-- One `scanTokenBuyers` pass folds `scanStep` over the fetched buyer
list. -/
def scanTick (st : ScanState) (buyers : List TokenBuyer) : ScanState :=
  buyers.foldl scanStep st

/-- Repeated polling ticks over the lifetime of one watch (the `Checked` set
persists across ticks). -/
def scanTicks (st : ScanState) (ticks : List (List TokenBuyer)) : ScanState :=
  ticks.foldl scanTick st

/-! ## Deep funding tracer (deep_tracer.go) -/

/-- `FundingHop` from deep_tracer.go. -/
structure FundingHop where
  fromAddress : String
  toAddress : String
  amount : ℚ
  token : String
  txHash : String
  chain : String
  hopType : String
  serviceName : String
  timestamp : Int
  depth : Nat
deriving DecidableEq, Repr

/-- `FundingTrace` from deep_tracer.go. -/
structure FundingTrace where
  address : String
  chain : String
  hops : List FundingHop
  originType : String
  originAddress : String
  originChain : String
  totalAmount : ℚ
  crossChainFlow : Bool
  suspicionLevel : String
deriving DecidableEq, Repr

/-- The severity table of `maxSuspicion` (missing keys score 0, as a Go map
lookup does). -/
def suspicionRank (s : String) : Nat :=
  if s = "clean" then 1
  else if s = "low" then 2
  else if s = "medium" then 3
  else if s = "high" then 4
  else if s = "critical" then 5
  else 0

/-- `maxSuspicion` from deep_tracer.go. -/
def maxSuspicion (current new : String) : String :=
  if suspicionRank current < suspicionRank new then new else current

/-- `identifyBridge` from deep_tracer.go: known bridge addresses, else a
generic per-chain label. -/
def identifyBridge (address chain : String) : String :=
  let a := address.toLower
  if a = "worm2zog2kud4vfxhvjh93uuh596ayrfgq2mgjnmtth" then "Wormhole"
  else if a = "0x3ee18b2214aff97000d974cf647e7c347e8fa585" then "Wormhole"
  else if a = "0x4200000000000000000000000000000000000010" then "Base Bridge"
  else if a = "0x49048044d57e1c92a77f79988d21fa8faf74e97e" then "Base Bridge"
  else "Bridge (" ++ chain ++ ")"

/-- `config.AllChains()`. -/
def allChains : List String :=
  ["solana", "ethereum", "base", "bsc"]

/-- The chain collaborator `Scanner.CheckFunding`, as a pure oracle from
`(address, chain)` to a funding analysis (the error path of the Go call
aborts a trace early and is not taken by any claim's scenario). -/
def FundingOracle : Type :=
  String → String → FundingAnalysis

/-- The state threaded through `traceRecursive`. `trace` and `visited` are
the `*FundingTrace` and `visited` map the Go mutates in place; `recursedInto`
and `processed` are ghost logs (not in the source) recording, in traversal
order, the funding sources that triggered a recursive call and every funding
source processed by the main loop. -/
structure TraceState where
  trace : FundingTrace
  visited : List String
  recursedInto : List FundingSource
  processed : List FundingSource
deriving DecidableEq, Repr

/-- The per-source body of `traceRecursive`'s loop, before the recursion
check: builds the hop, classifies the service (escalating the suspicion
level and flagging cross-chain for bridges), appends the hop, accumulates
the amount, and lets an identifiable (non-`unknown`, non-empty) source
overwrite the recorded origin. -/
def processSource (st : TraceState) (src : FundingSource) (address chain : String)
    (depth : Nat) : TraceState :=
  let hop : FundingHop :=
    { fromAddress := src.sourceAddress, toAddress := address, amount := src.amount,
      token := src.token, txHash := src.txHash, chain := chain,
      hopType := src.sourceType, serviceName := "", timestamp := src.timestamp,
      depth := depth }
  let tr := st.trace
  let (hop, tr) :=
    if src.sourceType = "fixedfloat" then
      ({ hop with serviceName := "FixedFloat" },
       { tr with suspicionLevel := maxSuspicion tr.suspicionLevel "high" })
    else if src.sourceType = "bridge" then
      ({ hop with serviceName := identifyBridge src.sourceAddress chain },
       { tr with suspicionLevel := maxSuspicion tr.suspicionLevel "medium",
                 crossChainFlow := true })
    else if src.sourceType = "mixer" then
      ({ hop with serviceName := "Mixer" },
       { tr with suspicionLevel := maxSuspicion tr.suspicionLevel "critical" })
    else if src.sourceType = "swap_service" then
      ({ hop with serviceName := "SwapService" },
       { tr with suspicionLevel := maxSuspicion tr.suspicionLevel "high" })
    else (hop, tr)
  let tr := { tr with hops := tr.hops ++ [hop], totalAmount := tr.totalAmount + src.amount }
  let tr :=
    if src.sourceType ≠ "unknown" ∧ src.sourceType ≠ "" then
      { tr with originType := src.sourceType, originAddress := src.sourceAddress,
                originChain := chain }
    else tr
  { st with trace := tr, processed := st.processed ++ [src] }

/-- `checkCrossChainFunding` from deep_tracer.go: for EVM-style addresses,
a bridge-sourced funding edge on another chain appends an extra depth-0 hop
and marks the trace cross-chain. It never touches the origin fields, the
visited set or the ghost logs. -/
def checkCrossChainFunding (o : FundingOracle) (tr : FundingTrace)
    (address _sourceChain destChain : String) : FundingTrace :=
  if address.startsWith "0x" then
    let otherFunding := o address destChain
    if otherFunding.isNewWallet then tr
    else
      otherFunding.fundingSources.foldl
        (fun tr src =>
          if src.sourceType = "bridge" then
            { tr with
              crossChainFlow := true,
              hops := tr.hops ++
                [{ fromAddress := src.sourceAddress, toAddress := address,
                   amount := src.amount, token := src.token, txHash := src.txHash,
                   chain := destChain, hopType := "bridge",
                   serviceName := identifyBridge src.sourceAddress destChain,
                   timestamp := src.timestamp, depth := 0 }],
              suspicionLevel := maxSuspicion tr.suspicionLevel "medium" }
          else tr) tr
  else tr

/-- Marking a funding source's address visited and logging the recursive
call, just before `traceRecursive` recurses into it. -/
def markVisited (st : TraceState) (src : FundingSource) : TraceState :=
  { st with visited := src.sourceAddress :: st.visited,
            recursedInto := st.recursedInto ++ [src] }

/-- The brand-new-wallet rule at the top of `traceRecursive`: at depth 0 a
wallet with no prior transactions sets the suspicion level to `"medium"`. -/
def preStep (funding : FundingAnalysis) (depth : Nat) (st : TraceState) : TraceState :=
  if funding.isNewWallet ∧ depth = 0 then
    { st with trace := { st.trace with suspicionLevel := "medium" } }
  else st

/-- The tail of `traceRecursive`: the depth-0 cross-chain probe over every
other supported chain, then the default of an untouched suspicion level to
`"clean"`. -/
def postStep (o : FundingOracle) (address chain : String) (depth : Nat)
    (st : TraceState) : TraceState :=
  let tr2 :=
    if depth = 0 then
      (allChains.filter (· ≠ chain)).foldl
        (fun tr oc => checkCrossChainFunding o tr address chain oc) st.trace
    else st.trace
  if tr2.suspicionLevel = "" then
    { st with trace := { tr2 with suspicionLevel := "clean" } }
  else { st with trace := tr2 }

/-- The funding-source loop of `traceRecursive`: each source is processed by
`processSource`; an `unknown`-typed source whose address is not yet visited
is marked visited and recursed into (at `depth + 1`, same chain) before the
loop continues. The recursive call of `traceRecursive` is abstracted as the
`recurse` parameter (instantiated with the next fuel level by `traceFuel`),
which keeps the definition structurally recursive on the source list. -/
def traceSources (recurse : TraceState → String → Nat → Option TraceState)
    (srcs : List FundingSource) (st : TraceState) (address chain : String)
    (depth : Nat) : Option TraceState :=
  match srcs with
  | [] => some st
  | src :: rest =>
      let st1 := processSource st src address chain depth
      if src.sourceType = "unknown" ∧ src.sourceAddress ∉ st1.visited then
        match recurse (markVisited st1 src) src.sourceAddress (depth + 1) with
        | none => none
        | some st2 => traceSources recurse rest st2 address chain depth
      else traceSources recurse rest st1 address chain depth

/-- `traceRecursive` from deep_tracer.go, with an explicit recursion budget
`f` (fuel). The Go function has no fuel — its termination is exactly what
the fuel-sufficiency theorem establishes: `none` means the budget was
exhausted, and a budget of `maxDepth + 1 - depth` always suffices. At or
beyond `maxDepth` the call returns immediately; otherwise it consults the
funding oracle, applies the depth-0 brand-new-wallet rule (`preStep`),
walks the funding sources (recursing at the next fuel level, on the same
chain), and finishes with the depth-0 cross-chain probe and the `"clean"`
default (`postStep`). -/
def traceFuel (o : FundingOracle) (maxDepth : Nat) :
    Nat → TraceState → String → String → Nat → Option TraceState
  | 0, _, _, _, _ => none
  | Nat.succ g, st, address, chain, depth =>
      if maxDepth ≤ depth then some st
      else
        match traceSources (fun st2 a2 d2 => traceFuel o maxDepth g st2 a2 chain d2)
            (o address chain).fundingSources (preStep (o address chain) depth st)
            address chain depth with
        | none => none
        | some st2 => some (postStep o address chain depth st2)

/-- The trace state `TraceWalletFunding` starts from: empty trace for the
wallet, visited set seeded with the starting address. -/
def initTraceState (address chain : String) : TraceState :=
  { trace :=
      { address := address, chain := chain, hops := [], originType := "",
        originAddress := "", originChain := "", totalAmount := 0,
        crossChainFlow := false, suspicionLevel := "" },
    visited := [address], recursedInto := [], processed := [] }

/-- `TraceWalletFunding` from deep_tracer.go: the recursive trace from depth
0, given the recursion budget `maxDepth + 1` that the fuel-sufficiency
theorem shows is always enough. -/
def traceWalletFunding (o : FundingOracle) (address chain : String)
    (maxDepth : Nat) : Option TraceState :=
  traceFuel o maxDepth (maxDepth + 1) (initTraceState address chain) address chain 0

/-! ## Store operations (frontend.go) -/

/-- The four signal flags `UpdateWashScore` can set. -/
def applyFlag (r : WashWalletCandidate) (kv : String × Bool) : WashWalletCandidate :=
  if kv.1 = "bought_same_token" then { r with boughtSameToken := kv.2 }
  else if kv.1 = "timing_match" then { r with timingMatch := kv.2 }
  else if kv.1 = "amount_pattern_match" then { r with amountPatternMatch := kv.2 }
  else if kv.1 = "bot_signature_match" then { r with botSignatureMatch := kv.2 }
  else r

/-- `Store.UpdateWashScore` (frontend.go): a plain SQL `UPDATE ... SET
confidence_score = ?` on the rows matching `(address, chain)` — the new
score overwrites the stored one, and the listed signal flags are set. -/
def updateWashScore (db : List WashWalletCandidate) (addr chain : String)
    (score : ℚ) (signals : List (String × Bool)) : List WashWalletCandidate :=
  db.map fun r =>
    if r.address = addr ∧ r.chain = chain then
      signals.foldl applyFlag { r with confidenceScore := score }
    else r

/-- `Store.UpsertWashCandidate` (frontend.go): insert, or on an
`(address, chain)` conflict raise `confidence_score` to the max of old and
new and replace `funding_source_type` (the Go always binds a non-NULL
string, so the SQL `COALESCE(excluded...., old)` takes the excluded
value). -/
def upsertWashCandidate (db : List WashWalletCandidate)
    (wc : WashWalletCandidate) : List WashWalletCandidate :=
  if db.any (fun r => r.address = wc.address && r.chain = wc.chain) then
    db.map fun r =>
      if r.address = wc.address ∧ r.chain = wc.chain then
        { r with confidenceScore := max r.confidenceScore wc.confidenceScore,
                 fundingSourceType := wc.fundingSourceType }
      else r
  else db ++ [wc]

/-- `db.TrackedWallet` — the persisted row of `tracked_wallets`. -/
structure TrackedWallet where
  kolID : Int
  address : String
  chain : String
  label : String
  confidence : ℚ
  source : String
  discoveredAt : Int
deriving DecidableEq, Repr

/-- `Store.UpsertWallet` (frontend.go): insert, or on an `(address, chain)`
conflict set `confidence = MAX(old, new)` and replace `label` only when the
new confidence is strictly greater than the stored one; `kol_id`, `source`
and `discovered_at` are not in the `DO UPDATE SET` list. `now` is the
`discovered_at` a fresh insert receives from the schema default. -/
def upsertWallet (db : List TrackedWallet) (kolID : Int)
    (addr chain label : String) (confidence : ℚ) (source : String)
    (now : Int) : List TrackedWallet :=
  if db.any (fun r => r.address = addr && r.chain = chain) then
    db.map fun r =>
      if r.address = addr ∧ r.chain = chain then
        { r with confidence := max r.confidence confidence,
                 label := if r.confidence < confidence then label else r.label }
      else r
  else
    db ++ [{ kolID := kolID, address := addr, chain := chain, label := label,
             confidence := confidence, source := source, discoveredAt := now }]

/-! ## Auxiliary definitions used by the statements -/

/-- A funding source with a classified (non-`unknown`, non-empty) type —
the sources lines 115–120 of deep_tracer.go let overwrite the origin. -/
def identifiableSrc (s : FundingSource) : Bool :=
  s.sourceType ≠ "unknown" && s.sourceType ≠ ""

/-- The origin fields of a trace, as one triple. -/
def originTriple (tr : FundingTrace) : String × String × String :=
  (tr.originType, tr.originAddress, tr.originChain)

/-- How one processed funding source updates the origin triple (the
assignment at lines 116–120 of deep_tracer.go, on the trace's chain). -/
def originUpd (chain : String) (acc : String × String × String)
    (s : FundingSource) : String × String × String :=
  if s.sourceType ≠ "unknown" ∧ s.sourceType ≠ "" then
    (s.sourceType, s.sourceAddress, chain)
  else acc

/-- Relation between the tracer state at entry and at exit of any
(sub)traversal on a fixed chain: the visited set only grows; the ghost logs
only grow at the tail; every new recursion target had an `unknown`-typed
source, was unvisited at entry and is visited at exit; the new recursion
targets are pairwise distinct; and the origin triple is the fold of the
per-source origin update over the newly processed sources. -/
def TraceStep (chain : String) (st st' : TraceState) : Prop :=
  (∀ a, a ∈ st.visited → a ∈ st'.visited) ∧
  (∃ new, st'.recursedInto = st.recursedInto ++ new ∧
    (∀ s ∈ new, s.sourceType = "unknown" ∧ s.sourceAddress ∉ st.visited ∧
      s.sourceAddress ∈ st'.visited) ∧
    (new.map (·.sourceAddress)).Nodup) ∧
  (∃ newP, st'.processed = st.processed ++ newP ∧
    originTriple st'.trace = newP.foldl (originUpd chain) (originTriple st.trace))

/-! ### Concrete instances used by witnesses and counterexamples -/

/-- A cyclic funding graph: `A` is funded by `B` and `B` by `A`, both edges
`unknown`-typed. -/
def cycleOracle : FundingOracle := fun a _c =>
  if a = "A" then ⟨false, [⟨"B", 5, "ETH", "tx1", "unknown", 10⟩], some 1, 5, "ETH"⟩
  else if a = "B" then ⟨false, [⟨"A", 5, "ETH", "tx2", "unknown", 9⟩], some 1, 5, "ETH"⟩
  else ⟨true, [], none, 0, "ETH"⟩

/-- The state the tracer reaches on the cyclic graph from `A`. -/
def cycleTraceResult : TraceState :=
  (traceWalletFunding cycleOracle "A" "ethereum" 3).getD (initTraceState "A" "ethereum")

/-- The one funding source the cyclic trace recurses into. -/
def cycleRecSrc : FundingSource := ⟨"B", 5, "ETH", "tx1", "unknown", 10⟩

/-- A wallet funded first by a FixedFloat edge from `S1`, then by a mixer
edge from `S2` — two identifiable sources in one funding list. -/
def twoOriginOracle : FundingOracle := fun a _c =>
  if a = "W" then
    ⟨false, [⟨"S1", 10, "SOL", "t1", "fixedfloat", 5⟩,
             ⟨"S2", 20, "SOL", "t2", "mixer", 6⟩], some 1, 30, "SOL"⟩
  else ⟨true, [], none, 0, "SOL"⟩

/-- The state the tracer reaches on `twoOriginOracle` from `W`. -/
def twoOriginResult : TraceState :=
  (traceWalletFunding twoOriginOracle "W" "solana" 1).getD (initTraceState "W" "solana")

/-- A brand-new wallet on every chain: no prior transactions, no funding
edges. -/
def freshOracle : FundingOracle := fun _a _c => ⟨true, [], none, 0, "SOL"⟩

/-- The state the tracer reaches on `freshOracle`. -/
def freshTraceResult : TraceState :=
  (traceWalletFunding freshOracle "W" "solana" 3).getD (initTraceState "W" "solana")

/-- Mentions by KOL 1 of tokens `T1` and `T2`, both at time 0. -/
def halfMentions : List TokenMention :=
  [⟨1, "T1", 0⟩, ⟨1, "T2", 0⟩]

/-- Two buys on mentioned tokens: one 100 s after the mention (within 2 h),
one 100 000 s after (outside 2 h) — exactly 50 % correlated. -/
def halfBuys : List WalletTransaction :=
  [⟨"swap_buy", "T1", "T1", 10, 1, "", 0, 100⟩,
   ⟨"swap_buy", "T2", "T2", 10, 1, "", 0, 100000⟩]

/-- A stored wash-wallet candidate row for `(W, solana)`. -/
def demoCandidate : WashWalletCandidate :=
  { address := "W", chain := "solana", fundedBy := "", fundingSourceType := "unknown",
    fundingAmount := 0, fundingToken := "", fundingTx := "", firstSeen := none,
    boughtSameToken := false, timingMatch := false, amountPatternMatch := false,
    botSignatureMatch := false, confidenceScore := 0, linkedKOLID := 1,
    status := "candidate", notes := "" }

/-- A tracked wallet owned by KOL 7. -/
def demoWallet : TrackedWallet :=
  { kolID := 7, address := "W", chain := "solana", label := "main",
    confidence := 9/10, source := "manual", discoveredAt := 111 }

/-- A brand-new-wallet funding analysis (zero prior transactions, no
funding edges). -/
def freshFunding : FundingAnalysis :=
  ⟨true, [], none, 0, "SOL"⟩

/-- The invariant maintained by the watch scanner: dispatched addresses are
pairwise distinct and are all in the seen-set. -/
def ScanInv (st : ScanState) : Prop :=
  st.dispatched.Nodup ∧ st.dispatched ⊆ st.checked

/-! ## Helper lemmas -/

lemma addSignal_nonneg {acc : ℚ} (s : ℚ) (h : 0 ≤ acc) : 0 ≤ addSignal acc s := by
  unfold addSignal
  split
  · linarith
  · exact h

lemma buyerAgeBonus_nonneg (f : FundingAnalysis) (now : Int) :
    0 ≤ buyerAgeBonus f now := by
  rcases f with ⟨inw, srcs, ftt, tf, ns⟩
  rcases inw <;> rcases ftt <;>
    simp only [buyerAgeBonus, Bool.false_eq_true, if_false, if_true] <;>
    try norm_num
  all_goals split_ifs <;> norm_num

lemma buyerFundingStep_le (acc : ℚ) (s : FundingSource) :
    acc ≤ buyerFundingStep acc s := by
  unfold buyerFundingStep
  split_ifs <;> linarith

lemma foldl_buyerFundingStep_le (l : List FundingSource) :
    ∀ acc : ℚ, acc ≤ l.foldl buyerFundingStep acc := by
  induction l with
  | nil => intro acc; simp
  | cons s rest ih =>
      intro acc
      exact le_trans (buyerFundingStep_le acc s) (ih _)

lemma buyerFundingBonus_nonneg (l : List FundingSource) : 0 ≤ buyerFundingBonus l :=
  foldl_buyerFundingStep_le l 0

lemma buyerTimingBonus_nonneg (d : Int) : 0 ≤ buyerTimingBonus d := by
  unfold buyerTimingBonus
  split_ifs <;> norm_num

lemma safePct_lt_fifty (corr tot : Nat) (h : tot ≠ 0) :
    safePct corr tot < 50 ↔ 2 * corr < tot := by
  have hp : (0 : ℚ) < (tot : ℚ) := by exact_mod_cast Nat.pos_of_ne_zero h
  unfold safePct
  rw [if_neg h, div_mul_eq_mul_div, div_lt_iff₀ hp,
    show ((50 : ℚ) * tot = ((50 * tot : Nat) : ℚ)) by push_cast; ring,
    show ((corr : ℚ) * 100 = ((corr * 100 : Nat) : ℚ)) by push_cast; ring,
    Nat.cast_lt]
  omega

lemma applyFlags_confidence (signals : List (String × Bool)) :
    ∀ r : WashWalletCandidate,
      (signals.foldl applyFlag r).confidenceScore = r.confidenceScore := by
  induction signals with
  | nil => intro r; rfl
  | cons kv rest ih =>
      intro r
      rw [List.foldl_cons, ih]
      unfold applyFlag
      split_ifs <;> rfl

lemma scanStep_inv {st : ScanState} (b : TokenBuyer) (h : ScanInv st) :
    ScanInv (scanStep st b) := by
  unfold scanStep
  split_ifs with hc
  · exact h
  · obtain ⟨hnd, hsub⟩ := h
    push_neg at hc
    constructor
    · rw [List.nodup_append]
      refine ⟨hnd, List.nodup_singleton _, ?_⟩
      intro x hx hx1
      rw [List.mem_singleton] at hx1
      exact hc.2 (hx1 ▸ hsub hx)
    · intro x hx
      rcases List.mem_append.mp hx with hx | hx
      · exact List.mem_cons_of_mem _ (hsub hx)
      · rw [List.mem_singleton] at hx
        exact hx ▸ List.mem_cons_self _ _

lemma scanTick_inv (buyers : List TokenBuyer) :
    ∀ st : ScanState, ScanInv st → ScanInv (scanTick st buyers) := by
  induction buyers with
  | nil => intro st h; exact h
  | cons b rest ih =>
      intro st h
      exact ih (scanStep st b) (scanStep_inv b h)

lemma scanTicks_inv (ticks : List (List TokenBuyer)) :
    ∀ st : ScanState, ScanInv st → ScanInv (scanTicks st ticks) := by
  induction ticks with
  | nil => intro st h; exact h
  | cons t rest ih =>
      intro st h
      exact ih (scanTick st t) (scanTick_inv t st h)

lemma processSource_visited (st : TraceState) (src : FundingSource) (a c : String) (d : Nat) :
    (processSource st src a c d).visited = st.visited := by
  unfold processSource
  split_ifs <;> rfl

lemma processSource_recursedInto (st : TraceState) (src : FundingSource) (a c : String) (d : Nat) :
    (processSource st src a c d).recursedInto = st.recursedInto := by
  unfold processSource
  split_ifs <;> rfl

lemma processSource_processed (st : TraceState) (src : FundingSource) (a c : String) (d : Nat) :
    (processSource st src a c d).processed = st.processed ++ [src] := by
  unfold processSource
  split_ifs <;> rfl

lemma processSource_originTriple (st : TraceState) (src : FundingSource) (a c : String) (d : Nat) :
    originTriple (processSource st src a c d).trace = originUpd c (originTriple st.trace) src := by
  unfold processSource originUpd originTriple
  split_ifs <;> rfl

lemma traceStep_refl (c : String) (st : TraceState) : TraceStep c st st :=
  ⟨fun _ h => h, ⟨[], (List.append_nil _).symm, by simp, List.nodup_nil⟩,
   ⟨[], (List.append_nil _).symm, rfl⟩⟩

lemma traceStep_trans {c : String} {st1 st2 st3 : TraceState}
    (h12 : TraceStep c st1 st2) (h23 : TraceStep c st2 st3) : TraceStep c st1 st3 := by
  obtain ⟨v12, ⟨n12, hr12, hp12, hd12⟩, ⟨p12, hq12, ho12⟩⟩ := h12
  obtain ⟨v23, ⟨n23, hr23, hp23, hd23⟩, ⟨p23, hq23, ho23⟩⟩ := h23
  refine ⟨fun a h => v23 _ (v12 _ h), ⟨n12 ++ n23, ?_, ?_, ?_⟩, ⟨p12 ++ p23, ?_, ?_⟩⟩
  · rw [hr23, hr12, List.append_assoc]
  · intro s hs
    rcases List.mem_append.mp hs with hs | hs
    · obtain ⟨ht, hnv, hv⟩ := hp12 s hs
      exact ⟨ht, hnv, v23 _ hv⟩
    · obtain ⟨ht, hnv, hv⟩ := hp23 s hs
      exact ⟨ht, fun hin => hnv (v12 _ hin), hv⟩
  · rw [List.map_append, List.nodup_append]
    refine ⟨hd12, hd23, ?_⟩
    intro x hx1 hx2
    obtain ⟨s1, hs1, he1⟩ := List.mem_map.mp hx1
    obtain ⟨s2, hs2, he2⟩ := List.mem_map.mp hx2
    exact (hp23 s2 hs2).2.1 (he2 ▸ he1 ▸ (hp12 s1 hs1).2.2)
  · rw [hq23, hq12, List.append_assoc]
  · rw [ho23, ho12, List.foldl_append]

lemma traceStep_of_eq_fields {c : String} {st st' : TraceState}
    (hv : st'.visited = st.visited) (hr : st'.recursedInto = st.recursedInto)
    (hp : st'.processed = st.processed)
    (ho : originTriple st'.trace = originTriple st.trace) : TraceStep c st st' :=
  ⟨fun x hx => hv ▸ hx, ⟨[], by rw [hr, List.append_nil], by simp, List.nodup_nil⟩,
   ⟨[], by rw [hp, List.append_nil], ho⟩⟩

lemma traceStep_process (st : TraceState) (src : FundingSource) (a c : String) (d : Nat) :
    TraceStep c st (processSource st src a c d) := by
  refine ⟨?_, ⟨[], ?_, by simp, List.nodup_nil⟩, ⟨[src], ?_, ?_⟩⟩
  · rw [processSource_visited]; exact fun _ h => h
  · rw [processSource_recursedInto, List.append_nil]
  · exact processSource_processed st src a c d
  · rw [processSource_originTriple]; rfl

lemma traceStep_mark (c : String) (st : TraceState) (src : FundingSource)
    (ht : src.sourceType = "unknown") (hv : src.sourceAddress ∉ st.visited) :
    TraceStep c st (markVisited st src) := by
  refine ⟨fun x hx => List.mem_cons_of_mem _ hx, ⟨[src], rfl, ?_, by simp⟩,
    ⟨[], (List.append_nil _).symm, rfl⟩⟩
  intro s hs
  rw [List.mem_singleton] at hs
  subst hs
  exact ⟨ht, hv, List.mem_cons_self _ _⟩

lemma originTriple_setSusp (tr : FundingTrace) (s : String) :
    originTriple { tr with suspicionLevel := s } = originTriple tr := rfl

lemma checkCrossChain_originTriple (o : FundingOracle) (tr : FundingTrace) (a sc dc : String) :
    originTriple (checkCrossChainFunding o tr a sc dc) = originTriple tr := by
  unfold checkCrossChainFunding
  dsimp only
  split_ifs with h1 h2
  · rfl
  · generalize (o a dc).fundingSources = l
    induction l generalizing tr with
    | nil => rfl
    | cons s rest ih =>
        rw [List.foldl_cons]
        refine (ih _).trans ?_
        split_ifs <;> rfl
  · rfl

lemma crossChainFold_originTriple (o : FundingOracle) (a c : String) (l : List String) :
    ∀ tr : FundingTrace,
      originTriple (l.foldl (fun tr oc => checkCrossChainFunding o tr a c oc) tr)
        = originTriple tr := by
  induction l with
  | nil => intro tr; rfl
  | cons x rest ih =>
      intro tr
      rw [List.foldl_cons]
      exact (ih _).trans (checkCrossChain_originTriple o tr a c x)

lemma preStep_visited (f : FundingAnalysis) (d : Nat) (st : TraceState) :
    (preStep f d st).visited = st.visited := by
  unfold preStep; split_ifs <;> rfl

lemma preStep_recursedInto (f : FundingAnalysis) (d : Nat) (st : TraceState) :
    (preStep f d st).recursedInto = st.recursedInto := by
  unfold preStep; split_ifs <;> rfl

lemma preStep_processed (f : FundingAnalysis) (d : Nat) (st : TraceState) :
    (preStep f d st).processed = st.processed := by
  unfold preStep; split_ifs <;> rfl

lemma preStep_originTriple (f : FundingAnalysis) (d : Nat) (st : TraceState) :
    originTriple (preStep f d st).trace = originTriple st.trace := by
  unfold preStep; split_ifs <;> rfl

lemma traceStep_preStep (c : String) (f : FundingAnalysis) (d : Nat) (st : TraceState) :
    TraceStep c st (preStep f d st) :=
  traceStep_of_eq_fields (preStep_visited f d st) (preStep_recursedInto f d st)
    (preStep_processed f d st) (preStep_originTriple f d st)

lemma postStep_visited (o : FundingOracle) (a c : String) (d : Nat) (st : TraceState) :
    (postStep o a c d st).visited = st.visited := by
  unfold postStep; dsimp only; split_ifs <;> rfl

lemma postStep_recursedInto (o : FundingOracle) (a c : String) (d : Nat) (st : TraceState) :
    (postStep o a c d st).recursedInto = st.recursedInto := by
  unfold postStep; dsimp only; split_ifs <;> rfl

lemma postStep_processed (o : FundingOracle) (a c : String) (d : Nat) (st : TraceState) :
    (postStep o a c d st).processed = st.processed := by
  unfold postStep; dsimp only; split_ifs <;> rfl

lemma postStep_originTriple (o : FundingOracle) (a c : String) (d : Nat) (st : TraceState) :
    originTriple (postStep o a c d st).trace = originTriple st.trace := by
  unfold postStep
  dsimp only
  by_cases hd : d = 0
  · simp only [hd, if_true]
    split_ifs with h1
    · exact (originTriple_setSusp _ _).trans (crossChainFold_originTriple o a c _ st.trace)
    · exact crossChainFold_originTriple o a c _ st.trace
  · simp only [hd, if_false]
    split_ifs with h1
    · exact originTriple_setSusp _ _
    · rfl

lemma traceStep_postStep (o : FundingOracle) (a c : String) (d : Nat) (st : TraceState) :
    TraceStep c st (postStep o a c d st) :=
  traceStep_of_eq_fields (postStep_visited o a c d st) (postStep_recursedInto o a c d st)
    (postStep_processed o a c d st) (postStep_originTriple o a c d st)

lemma traceSources_traceStep {c : String}
    {recurse : TraceState → String → Nat → Option TraceState}
    (hrec : ∀ st a d st', recurse st a d = some st' → TraceStep c st st') :
    ∀ (srcs : List FundingSource) (st : TraceState) (a : String) (d : Nat)
      (st' : TraceState),
      traceSources recurse srcs st a c d = some st' → TraceStep c st st' := by
  intro srcs
  induction srcs with
  | nil =>
      intro st a d st' h
      simp only [traceSources] at h
      cases h
      exact traceStep_refl c st
  | cons src rest ih =>
      intro st a d st' h
      simp only [traceSources] at h
      split at h
      · rename_i hcond
        cases heq : recurse (markVisited (processSource st src a c d) src)
            src.sourceAddress (d + 1) with
        | none => rw [heq] at h; cases h
        | some st3 =>
            rw [heq] at h
            exact traceStep_trans (traceStep_process st src a c d)
              (traceStep_trans (traceStep_mark c _ src hcond.1 hcond.2)
                (traceStep_trans (hrec _ _ _ _ heq) (ih _ _ _ _ h)))
      · exact traceStep_trans (traceStep_process st src a c d) (ih _ _ _ _ h)

lemma traceFuel_traceStep (o : FundingOracle) (maxDepth : Nat) :
    ∀ (f : Nat) (st : TraceState) (a c : String) (d : Nat) (st' : TraceState),
      traceFuel o maxDepth f st a c d = some st' → TraceStep c st st' := by
  intro f
  induction f with
  | zero =>
      intro st a c d st' h
      simp only [traceFuel] at h
      cases h
  | succ g ihg =>
      intro st a c d st' h
      simp only [traceFuel] at h
      split at h
      · cases h
        exact traceStep_refl c st
      · cases heq : traceSources (fun st2 a2 d2 => traceFuel o maxDepth g st2 a2 c d2)
            (o a c).fundingSources (preStep (o a c) d st) a c d with
        | none => rw [heq] at h; cases h
        | some st2 =>
            rw [heq] at h
            cases h
            exact traceStep_trans (traceStep_preStep c (o a c) d st)
              (traceStep_trans
                (traceSources_traceStep (fun s1 a1 d1 s2 hh => ihg s1 a1 c d1 s2 hh)
                  _ _ _ _ _ heq)
                (traceStep_postStep o a c d st2))

lemma traceSources_isSome {recurse : TraceState → String → Nat → Option TraceState}
    (srcs : List FundingSource) :
    ∀ (st : TraceState) (a c : String) (d : Nat),
      (∀ st2 a2, (recurse st2 a2 (d + 1)).isSome) →
      (traceSources recurse srcs st a c d).isSome := by
  induction srcs with
  | nil =>
      intro st a c d _
      simp [traceSources]
  | cons src rest ih =>
      intro st a c d hrec
      simp only [traceSources]
      split
      · have hr := hrec (markVisited (processSource st src a c d) src) src.sourceAddress
        cases heq : recurse (markVisited (processSource st src a c d) src)
            src.sourceAddress (d + 1) with
        | none => rw [heq] at hr; cases hr
        | some st3 => exact ih st3 a c d hrec
      · exact ih _ a c d hrec

lemma traceFuel_isSome (o : FundingOracle) (maxDepth : Nat) :
    ∀ (f : Nat) (st : TraceState) (a c : String) (d : Nat),
      1 ≤ f → maxDepth + 1 ≤ f + d → (traceFuel o maxDepth f st a c d).isSome := by
  intro f
  induction f with
  | zero =>
      intro st a c d h1 _
      exact absurd h1 (by omega)
  | succ g ihg =>
      intro st a c d _ hb
      simp only [traceFuel]
      split
      · simp
      · rename_i hd
        have hrec : ∀ st2 a2, (traceFuel o maxDepth g st2 a2 c (d + 1)).isSome :=
          fun st2 a2 => ihg st2 a2 c (d + 1) (by omega) (by omega)
        have hs := traceSources_isSome (o a c).fundingSources
          (preStep (o a c) d st) a c d hrec
        cases heq : traceSources (fun st2 a2 d2 => traceFuel o maxDepth g st2 a2 c d2)
            (o a c).fundingSources (preStep (o a c) d st) a c d with
        | none => rw [heq] at hs; cases hs
        | some st2 => simp

lemma identifiableSrc_iff (s : FundingSource) :
    identifiableSrc s = true ↔ (s.sourceType ≠ "unknown" ∧ s.sourceType ≠ "") := by
  simp [identifiableSrc]

lemma foldl_originUpd_eq (c : String) (l : List FundingSource) :
    ∀ init : String × String × String,
      l.foldl (originUpd c) init =
        match (l.filter (fun s => identifiableSrc s)).getLast? with
        | some s => (s.sourceType, s.sourceAddress, c)
        | none => init := by
  induction l using List.reverseRecOn with
  | nil => intro init; rfl
  | append_singleton l s ih =>
      intro init
      rw [List.foldl_append, List.foldl_cons, List.foldl_nil, List.filter_append]
      by_cases h : identifiableSrc s
      · rw [List.filter_cons_of_pos h, List.filter_nil]
        rw [List.getLast?_concat]
        unfold originUpd
        rw [if_pos ((identifiableSrc_iff s).mp h)]
      · rw [List.filter_cons_of_neg h, List.filter_nil, List.append_nil]
        unfold originUpd
        rw [if_neg (fun hc => h ((identifiableSrc_iff s).mpr hc))]
        exact ih init


lemma crossChainFold_newWallet (o : FundingOracle) (addr chain : String)
    (h : ∀ c', (o addr c').isNewWallet = true) (l : List String) :
    ∀ tr : FundingTrace,
      l.foldl (fun tr oc => checkCrossChainFunding o tr addr chain oc) tr = tr := by
  induction l with
  | nil => intro tr; rfl
  | cons x rest ih =>
      intro tr
      rw [List.foldl_cons]
      have hx : checkCrossChainFunding o tr addr chain x = tr := by
        unfold checkCrossChainFunding
        dsimp only
        split_ifs with h1 h2
        · rfl
        · exact absurd (h x) h2
        · rfl
      rw [hx]
      exact ih tr

/-! ## Claim theorems -/

/-- C2. For every input, both the wash score computed by
`ScoreWashCandidate` (`scoreWashTotal`) and the score computed by the
fresh-buyer analysis (`analyzeBuyerScore`) lie in the closed interval
`[0, 1]`. -/
theorem claim_C2_score_bounded (kolID : Int) (mentions : List TokenMention)
    (buys : List WalletTransaction) (bp : Option SizePattern)
    (dp : Option (List (String × Nat))) (gp : Option GasProfile)
    (cands : List WashWalletCandidate) (addr chain : String) (now : Int)
    (fa : FundingAnalysis) (bnow bts bmt : Int) :
    0 ≤ scoreWashTotal kolID mentions buys bp dp gp cands addr chain now ∧
    scoreWashTotal kolID mentions buys bp dp gp cands addr chain now ≤ 1 ∧
    0 ≤ analyzeBuyerScore fa bnow bts bmt ∧
    analyzeBuyerScore fa bnow bts bmt ≤ 1 := by
  refine ⟨?_, ?_, ?_, ?_⟩
  · exact le_min
      (addSignal_nonneg _ (addSignal_nonneg _ (addSignal_nonneg _ (addSignal_nonneg _
        (addSignal_nonneg _ (addSignal_nonneg _ (addSignal_nonneg _ le_rfl)))))))
      zero_le_one
  · exact min_le_right _ _
  · exact le_min
      (by
        have h1 := buyerAgeBonus_nonneg fa bnow
        have h2 := buyerFundingBonus_nonneg fa.fundingSources
        have h3 := buyerTimingBonus_nonneg (bts - bmt)
        unfold analyzeBuyerScore at *
        linarith)
      zero_le_one
  · exact min_le_right _ _

/-- C2 witness: the bound at one concrete input. -/
theorem claim_C2_score_bounded_witness :
    0 ≤ scoreWashTotal 1 halfMentions halfBuys none none none [demoCandidate] "W" "solana" 0 ∧
    scoreWashTotal 1 halfMentions halfBuys none none none [demoCandidate] "W" "solana" 0 ≤ 1 ∧
    0 ≤ analyzeBuyerScore freshFunding 0 1000 0 ∧
    analyzeBuyerScore freshFunding 0 1000 0 ≤ 1 :=
  claim_C2_score_bounded 1 halfMentions halfBuys none none none [demoCandidate]
    "W" "solana" 0 freshFunding 0 1000 0

/-- C6 counterexample. At exactly 50 % correlation (one of two buys on
mentioned tokens within 2 h of a mention) the code still awards the timing
contribution `0.2`, although the claim says the contribution is `0` at
exactly 50 %. -/
theorem claim_C6_counterexample :
    scoreTimingCorr 1 halfMentions halfBuys = 1/5 ∧
    timingTot 1 halfMentions halfBuys = 2 ∧
    timingCorr 1 halfMentions halfBuys = 1 := by
  have h1 : timingTot 1 halfMentions halfBuys = 2 := by decide
  have h2 : timingCorr 1 halfMentions halfBuys = 1 := by decide
  refine ⟨?_, h1, h2⟩
  unfold scoreTimingCorr
  rw [h1, h2]
  norm_num [safePct]

/-- C6 (amended). The timing-correlation signal contributes exactly `0.2`
if and only if the candidate has at least one buy on a KOL-mentioned token
and **at least** 50 % of those buys (the boundary included) fall within 2 h
of a mention; otherwise it contributes `0`. -/
theorem claim_C6_timing_threshold (kolID : Int) (mentions : List TokenMention)
    (buys : List WalletTransaction) :
    (scoreTimingCorr kolID mentions buys = 1/5 ↔
      (0 < timingTot kolID mentions buys ∧
        timingTot kolID mentions buys ≤ 2 * timingCorr kolID mentions buys)) ∧
    (scoreTimingCorr kolID mentions buys = 1/5 ∨
      scoreTimingCorr kolID mentions buys = 0) := by
  by_cases h0 : timingTot kolID mentions buys = 0
  · constructor
    · unfold scoreTimingCorr
      rw [if_pos (Or.inl h0)]
      constructor
      · intro h; norm_num at h
      · intro h; omega
    · right
      unfold scoreTimingCorr
      rw [if_pos (Or.inl h0)]
  · by_cases h1 : safePct (timingCorr kolID mentions buys) (timingTot kolID mentions buys) < 50
    · have h2 := (safePct_lt_fifty _ _ h0).mp h1
      constructor
      · unfold scoreTimingCorr
        rw [if_pos (Or.inr h1)]
        constructor
        · intro h; norm_num at h
        · intro h; omega
      · right
        unfold scoreTimingCorr
        rw [if_pos (Or.inr h1)]
    · have h2 : ¬ 2 * timingCorr kolID mentions buys < timingTot kolID mentions buys :=
        fun hc => h1 ((safePct_lt_fifty _ _ h0).mpr hc)
      constructor
      · unfold scoreTimingCorr
        rw [if_neg (by push_neg; exact ⟨h0, not_lt.mp h1⟩)]
        constructor
        · intro _; exact ⟨Nat.pos_of_ne_zero h0, by omega⟩
        · intro _; rfl
      · left
        unfold scoreTimingCorr
        rw [if_neg (by push_neg; exact ⟨h0, not_lt.mp h1⟩)]

/-- C6 witness: the amended threshold at the 50 %-correlated demo input. -/
theorem claim_C6_timing_threshold_witness :
    (scoreTimingCorr 1 halfMentions halfBuys = 1/5 ↔
      (0 < timingTot 1 halfMentions halfBuys ∧
        timingTot 1 halfMentions halfBuys ≤ 2 * timingCorr 1 halfMentions halfBuys)) ∧
    (scoreTimingCorr 1 halfMentions halfBuys = 1/5 ∨
      scoreTimingCorr 1 halfMentions halfBuys = 0) :=
  claim_C6_timing_threshold 1 halfMentions halfBuys

/-- C7 counterexample. On the buy multiset {100, 105, 98, 5000} the
common-amount list of the size pattern is empty — there is no cluster
around $100 with count 3 (the three near-$100 amounts round to the three
distinct keys 98, 100 and 110). -/
theorem claim_C7_counterexample :
    (buildSizePattern [100, 105, 98, 5000]).commonAmounts = [] := by
  norm_num [buildSizePattern, sortAsc, sortedInsert, sizeKey, goRound, avg, tally,
    bumpKey, sortByCountDesc, insertByCount]

/-- C7 (amended). On {100, 105, 98, 5000} the size pattern has mean
1325.75, but the common-amount list is empty: the rounding rule (whole
dollar under $100, nearest $10 at or above) sends 98 ↦ 98, 100 ↦ 100,
105 ↦ 110 and 5000 ↦ 5000, so no rounded amount recurs twice and no $100
cluster is produced at all. -/
theorem claim_C7_size_pattern :
    (buildSizePattern [100, 105, 98, 5000]).mean = 5303/4 ∧
    (buildSizePattern [100, 105, 98, 5000]).commonAmounts = [] ∧
    sizeKey 98 = 98 ∧ sizeKey 100 = 100 ∧ sizeKey 105 = 110 ∧
    sizeKey 5000 = 5000 ∧
    (buildSizePattern [100, 105, 98, 5000]).sampleCount = 4 := by
  refine ⟨?_, ?_, ?_, ?_, ?_, ?_, by decide⟩
  · norm_num [buildSizePattern, sortAsc, sortedInsert, avg]
  · norm_num [buildSizePattern, sortAsc, sortedInsert, sizeKey, goRound, avg, tally,
      bumpKey, sortByCountDesc, insertByCount]
  · norm_num [sizeKey, goRound]
  · norm_num [sizeKey, goRound]
  · norm_num [sizeKey, goRound]
  · norm_num [sizeKey, goRound]

/-- C9. For a fixed watch, over any sequence of polling ticks starting from
a fresh seen-set, the dispatched buyer addresses are pairwise distinct
(at-most-once dispatch) and every dispatched address is in the seen-set
(the mark is applied before dispatch). -/
theorem claim_C9_at_most_once (ticks : List (List TokenBuyer)) :
    (scanTicks ⟨[], []⟩ ticks).dispatched.Nodup ∧
    (scanTicks ⟨[], []⟩ ticks).dispatched ⊆ (scanTicks ⟨[], []⟩ ticks).checked :=
  scanTicks_inv ticks ⟨[], []⟩ ⟨List.nodup_nil, List.nil_subset _⟩

/-- C9 witness: a buyer polled again in a later tick is not re-dispatched. -/
theorem claim_C9_at_most_once_witness :
    (scanTicks ⟨[], []⟩ [[⟨"X", 0, 1⟩, ⟨"X", 5, 1⟩], [⟨"X", 9, 1⟩, ⟨"Y", 10, 1⟩]]).dispatched.Nodup ∧
    (scanTicks ⟨[], []⟩ [[⟨"X", 0, 1⟩, ⟨"X", 5, 1⟩], [⟨"X", 9, 1⟩, ⟨"Y", 10, 1⟩]]).dispatched ⊆
      (scanTicks ⟨[], []⟩ [[⟨"X", 0, 1⟩, ⟨"X", 5, 1⟩], [⟨"X", 9, 1⟩, ⟨"Y", 10, 1⟩]]).checked :=
  claim_C9_at_most_once [[⟨"X", 0, 1⟩, ⟨"X", 5, 1⟩], [⟨"X", 9, 1⟩, ⟨"Y", 10, 1⟩]]

/-- C1 counterexample. Two scoring passes persisting 0.5 and then 0.3
through `UpdateWashScore` leave the stored `confidence_score` at 0.3 —
strictly below the maximum 0.5 of all scores ever computed, so the
persisted score is not monotone and not the running maximum. -/
theorem claim_C1_counterexample :
    ((updateWashScore (updateWashScore [demoCandidate] "W" "solana" (1/2) [])
        "W" "solana" (3/10) []).map (·.confidenceScore) = [3/10]) ∧
    (3/10 : ℚ) < 1/2 := by
  refine ⟨by norm_num [updateWashScore, demoCandidate], by norm_num⟩

/-- C1 (amended). `ScoreWashCandidate` persists through `UpdateWashScore`,
which **overwrites** the stored `confidence_score` with the newly computed
score (so repeated passes can decrease it); the monotone-max semantics hold
only for `UpsertWashCandidate` (the fresh-buyer path), whose conflict clause
raises the stored score to the max of old and new. -/
theorem claim_C1_confidence_semantics (db : List WashWalletCandidate)
    (addr chain : String) (score : ℚ) (signals : List (String × Bool))
    (wc : WashWalletCandidate)
    (hex : ∃ r ∈ db, r.address = wc.address ∧ r.chain = wc.chain) :
    ((updateWashScore db addr chain score signals).map (·.confidenceScore)
      = db.map fun r =>
          if r.address = addr ∧ r.chain = chain then score else r.confidenceScore) ∧
    ((upsertWashCandidate db wc).map (·.confidenceScore)
      = db.map fun r =>
          if r.address = wc.address ∧ r.chain = wc.chain then
            max r.confidenceScore wc.confidenceScore
          else r.confidenceScore) := by
  constructor
  · unfold updateWashScore
    rw [List.map_map]
    apply List.map_congr_left
    intro r _
    simp only [Function.comp_apply]
    split_ifs with h
    · exact applyFlags_confidence signals _
    · rfl
  · obtain ⟨r0, hr0, ha0, hc0⟩ := hex
    have hany : db.any (fun r => r.address = wc.address && r.chain = wc.chain) = true :=
      List.any_eq_true.mpr ⟨r0, hr0, by simp [ha0, hc0]⟩
    unfold upsertWashCandidate
    rw [if_pos hany, List.map_map]
    apply List.map_congr_left
    intro r _
    simp only [Function.comp_apply]
    split_ifs with h
    · rfl
    · rfl

/-- C1 witness: the amended semantics at one concrete store. -/
theorem claim_C1_confidence_semantics_witness :
    (((updateWashScore [demoCandidate] "W" "solana" (1/2) []).map (·.confidenceScore))
      = [demoCandidate].map fun r =>
          if r.address = "W" ∧ r.chain = "solana" then (1/2 : ℚ) else r.confidenceScore) ∧
    (((upsertWashCandidate [demoCandidate] demoCandidate).map (·.confidenceScore))
      = [demoCandidate].map fun r =>
          if r.address = demoCandidate.address ∧ r.chain = demoCandidate.chain then
            max r.confidenceScore demoCandidate.confidenceScore
          else r.confidenceScore) :=
  claim_C1_confidence_semantics [demoCandidate] "W" "solana" (1/2) [] demoCandidate
    ⟨demoCandidate, by simp, rfl, rfl⟩

/-- C10. When `UpsertWallet` hits an existing `(address, chain)` row, every
row keeps its `kol_id`, `source`, `discovered_at`, `address` and `chain`
(in particular the wallet is never reassigned to a different KOL), no row
is added or removed, and only the matching row's `confidence` (raised to
the max of old and new) and `label` (replaced only when the new confidence
is strictly greater) change. -/
theorem claim_C10_upsert_frame (db : List TrackedWallet) (kolID : Int)
    (addr chain label : String) (conf : ℚ) (source : String) (now : Int)
    (hex : ∃ r ∈ db, r.address = addr ∧ r.chain = chain) :
    (upsertWallet db kolID addr chain label conf source now).map (·.kolID)
      = db.map (·.kolID) ∧
    (upsertWallet db kolID addr chain label conf source now).map (·.source)
      = db.map (·.source) ∧
    (upsertWallet db kolID addr chain label conf source now).map (·.discoveredAt)
      = db.map (·.discoveredAt) ∧
    (upsertWallet db kolID addr chain label conf source now).map (·.address)
      = db.map (·.address) ∧
    (upsertWallet db kolID addr chain label conf source now).map (·.chain)
      = db.map (·.chain) ∧
    (upsertWallet db kolID addr chain label conf source now).map
        (fun r => (r.confidence, r.label))
      = db.map fun r =>
          if r.address = addr ∧ r.chain = chain then
            (max r.confidence conf, if r.confidence < conf then label else r.label)
          else (r.confidence, r.label) := by
  obtain ⟨r0, hr0, ha0, hc0⟩ := hex
  have hany : db.any (fun r => r.address = addr && r.chain = chain) = true :=
    List.any_eq_true.mpr ⟨r0, hr0, by simp [ha0, hc0]⟩
  have hb : upsertWallet db kolID addr chain label conf source now
      = db.map fun r =>
          if r.address = addr ∧ r.chain = chain then
            { r with confidence := max r.confidence conf,
                     label := if r.confidence < conf then label else r.label }
          else r := by
    unfold upsertWallet
    rw [if_pos hany]
  refine ⟨?_, ?_, ?_, ?_, ?_, ?_⟩ <;>
    rw [hb, List.map_map] <;>
    apply List.map_congr_left <;>
    intro r _ <;>
    simp only [Function.comp_apply] <;>
    split_ifs <;>
    rfl

/-- C10 witness: the frame at one concrete store — re-inserting wallet `W`
under KOL 3 with a different label leaves KOL 7 the owner. -/
theorem claim_C10_upsert_frame_witness :
    (upsertWallet [demoWallet] 3 "W" "solana" "other" (1/2) "auto" 999).map (·.kolID)
      = [demoWallet].map (·.kolID) ∧
    (upsertWallet [demoWallet] 3 "W" "solana" "other" (1/2) "auto" 999).map (·.source)
      = [demoWallet].map (·.source) ∧
    (upsertWallet [demoWallet] 3 "W" "solana" "other" (1/2) "auto" 999).map (·.discoveredAt)
      = [demoWallet].map (·.discoveredAt) ∧
    (upsertWallet [demoWallet] 3 "W" "solana" "other" (1/2) "auto" 999).map (·.address)
      = [demoWallet].map (·.address) ∧
    (upsertWallet [demoWallet] 3 "W" "solana" "other" (1/2) "auto" 999).map (·.chain)
      = [demoWallet].map (·.chain) ∧
    (upsertWallet [demoWallet] 3 "W" "solana" "other" (1/2) "auto" 999).map
        (fun r => (r.confidence, r.label))
      = [demoWallet].map fun r =>
          if r.address = "W" ∧ r.chain = "solana" then
            (max r.confidence (1/2), if r.confidence < (1/2 : ℚ) then "other" else r.label)
          else (r.confidence, r.label) :=
  claim_C10_upsert_frame [demoWallet] 3 "W" "solana" "other" (1/2) "auto" 999
    ⟨demoWallet, by simp, rfl, rfl⟩

/-- C3. During any funding trace, only `unknown`-typed sources are ever
recursed into: every funding source in the trace's recursion log has
`source_type = "unknown"`, so a classified source (mixer, bridge,
fixedfloat, swap_service) is never itself recursed into, even below
`max_depth`. -/
theorem claim_C3_classified_terminus (o : FundingOracle) (addr chain : String)
    (maxDepth : Nat) (st : TraceState) (s : FundingSource)
    (hst : traceWalletFunding o addr chain maxDepth = some st)
    (hs : s ∈ st.recursedInto) : s.sourceType = "unknown" := by
  have hstep := traceFuel_traceStep o maxDepth (maxDepth + 1) _ _ _ _ _ hst
  obtain ⟨_, ⟨new, hrec, hprops, _⟩, _⟩ := hstep
  rw [hrec] at hs
  rcases List.mem_append.mp hs with h | h
  · exact absurd h (by simp [initTraceState])
  · exact (hprops s h).1

/-- C3 witness: on the cyclic demo graph the (single) recursion target is
`unknown`-typed. -/
theorem claim_C3_classified_terminus_witness : cycleRecSrc.sourceType = "unknown" :=
  claim_C3_classified_terminus cycleOracle "A" "ethereum" 3 cycleTraceResult cycleRecSrc
    (by rfl) (List.mem_singleton_self _)

/-- C4. `TraceWalletFunding` terminates on every input — cyclic funding
graphs included: a recursion budget of `maxDepth + 1` fuel (at most
`max_depth` nested recursive calls below the root) always produces a
result, the addresses recursed into are pairwise distinct (no address is
ever revisited), and the starting address is never recursed into again. -/
theorem claim_C4_cycle_termination (o : FundingOracle) (addr chain : String)
    (maxDepth : Nat) :
    ∃ st, traceWalletFunding o addr chain maxDepth = some st ∧
      (st.recursedInto.map (·.sourceAddress)).Nodup ∧
      addr ∉ st.recursedInto.map (·.sourceAddress) := by
  have h := traceFuel_isSome o maxDepth (maxDepth + 1) (initTraceState addr chain)
    addr chain 0 (by omega) (by omega)
  obtain ⟨st, heq⟩ := Option.isSome_iff_exists.mp h
  have hstep := traceFuel_traceStep o maxDepth (maxDepth + 1) _ _ _ _ _ heq
  obtain ⟨hv, ⟨new, hrec, hprops, hnd⟩, _⟩ := hstep
  have hrec' : st.recursedInto = new := hrec.trans (List.nil_append new)
  refine ⟨st, heq, ?_, ?_⟩
  · rw [hrec']
    exact hnd
  · rw [hrec']
    intro hmem
    obtain ⟨s, hs, he⟩ := List.mem_map.mp hmem
    exact (hprops s hs).2.1 (by rw [he]; exact List.mem_singleton_self addr)

/-- C4 witness: termination, distinct recursion targets and no revisit of
the start address, on the concrete cyclic funding graph A ↔ B. -/
theorem claim_C4_cycle_termination_witness :
    ∃ st, traceWalletFunding cycleOracle "A" "ethereum" 3 = some st ∧
      (st.recursedInto.map (·.sourceAddress)).Nodup ∧
      "A" ∉ st.recursedInto.map (·.sourceAddress) :=
  claim_C4_cycle_termination cycleOracle "A" "ethereum" 3

/-- C5 counterexample. With two identifiable sources in one funding list —
a FixedFloat edge from `S1` followed by a mixer edge from `S2` — the
recorded origin is `S2` (the mixer), not the FIRST identifiable source
`S1`: each identifiable source overwrites the origin fields. -/
theorem claim_C5_counterexample :
    twoOriginResult.trace.originAddress = "S2" ∧
    twoOriginResult.trace.originType = "mixer" ∧
    (twoOriginResult.processed.filter (fun x => identifiableSrc x)).head?.map
      (·.sourceAddress) = some "S1" ∧
    ("S1" : String) ≠ "S2" := by
  refine ⟨by rfl, by rfl, by rfl, by decide⟩

/-- C5 (amended). The trace's recorded origin is the **last** identifiable
(non-`unknown`, non-empty) funding source encountered during the
traversal (in processing order), with the origin chain equal to the
trace's chain — not the first one, as each identifiable source overwrites
the origin fields. -/
theorem claim_C5_origin_last (o : FundingOracle) (addr chain : String) (maxDepth : Nat)
    (st : TraceState) (s : FundingSource)
    (hst : traceWalletFunding o addr chain maxDepth = some st)
    (hlast : (st.processed.filter (fun x => identifiableSrc x)).getLast? = some s) :
    st.trace.originType = s.sourceType ∧ st.trace.originAddress = s.sourceAddress ∧
    st.trace.originChain = chain := by
  have hstep := traceFuel_traceStep o maxDepth (maxDepth + 1) _ _ _ _ _ hst
  obtain ⟨_, _, ⟨newP, hproc, horig⟩⟩ := hstep
  have hproc' : st.processed = newP := hproc.trans (List.nil_append _)
  rw [← hproc', foldl_originUpd_eq, hlast] at horig
  exact ⟨congrArg (fun p => p.1) horig, congrArg (fun p => p.2.1) horig,
    congrArg (fun p => p.2.2) horig⟩

/-- C5 witness: the amended statement at the two-source demo graph. -/
theorem claim_C5_origin_last_witness :
    twoOriginResult.trace.originType = "mixer" ∧
    twoOriginResult.trace.originAddress = "S2" ∧
    twoOriginResult.trace.originChain = "solana" :=
  claim_C5_origin_last twoOriginOracle "W" "solana" 1 twoOriginResult
    ⟨"S2", 20, "SOL", "t2", "mixer", 6⟩ (by rfl) (by rfl)


/-- C8 (amended). For a candidate whose funding check reports a brand-new
wallet (`is_new_wallet = true`) with no funding edges, the depth-0 trace
sets `suspicion_level` to `"medium"`; but the fresh-buyer analysis awards
the brand-new-wallet bonus of **0.15**, not the 0.20 claimed (`0.2` is the
<24 h bonus of the `else` branch, reserved for wallets that are not
brand-new) — and with no other signal the resulting 0.15 score even falls
below the 0.2 persistence threshold, so nothing is stored. -/
theorem claim_C8_new_wallet (o : FundingOracle) (addr chain : String) (maxDepth : Nat)
    (st : TraceState) (fa : FundingAnalysis) (now bts bmt : Int)
    (h1 : (o addr chain).isNewWallet = true)
    (h2 : (o addr chain).fundingSources = [])
    (h3 : ∀ c', (o addr c').isNewWallet = true)
    (h4 : 0 < maxDepth)
    (hst : traceWalletFunding o addr chain maxDepth = some st)
    (hf1 : fa.isNewWallet = true) (hf2 : fa.fundingSources = [])
    (h5 : 300 ≤ bts - bmt) :
    st.trace.suspicionLevel = "medium" ∧
    analyzeBuyerScore fa now bts bmt = 3/20 ∧
    analyzeBuyerPersisted fa now bts bmt = false := by
  have hage : buyerAgeBonus fa now = 3/20 := by
    unfold buyerAgeBonus
    rw [if_pos hf1]
  have hfund : buyerFundingBonus fa.fundingSources = 0 := by
    rw [hf2]; rfl
  have htim : buyerTimingBonus (bts - bmt) = 0 := by
    unfold buyerTimingBonus
    rw [if_neg (by omega), if_neg (by omega), if_neg (by omega), if_neg (by omega)]
  have hscore : analyzeBuyerScore fa now bts bmt = 3/20 := by
    unfold analyzeBuyerScore
    rw [hage, hfund, htim]
    norm_num [min_def]
  refine ⟨?_, hscore, ?_⟩
  · obtain ⟨g, hg⟩ : ∃ g, maxDepth = g + 1 := ⟨maxDepth - 1, by omega⟩
    unfold traceWalletFunding at hst
    simp only [traceFuel] at hst
    rw [if_neg (by omega : ¬ maxDepth ≤ 0), h2] at hst
    simp only [traceSources] at hst
    have hpre : preStep (o addr chain) 0 (initTraceState addr chain)
        = { initTraceState addr chain with trace :=
            { (initTraceState addr chain).trace with suspicionLevel := "medium" } } := by
      unfold preStep
      rw [if_pos ⟨h1, rfl⟩]
    rw [hpre] at hst
    have hpost : postStep o addr chain 0
        { initTraceState addr chain with trace :=
          { (initTraceState addr chain).trace with suspicionLevel := "medium" } }
        = { initTraceState addr chain with trace :=
          { (initTraceState addr chain).trace with suspicionLevel := "medium" } } := by
      unfold postStep
      dsimp only
      rw [if_pos rfl, crossChainFold_newWallet o addr chain h3]
      rw [if_neg (by decide : ¬ ("medium" : String) = "")]
    rw [hpost] at hst
    cases hst
    rfl
  · unfold analyzeBuyerPersisted
    rw [hscore]
    simp only [decide_eq_false_iff_not, not_not]
    norm_num

/-- C8 witness: the amended statement on the brand-new demo wallet. -/
theorem claim_C8_new_wallet_witness :
    freshTraceResult.trace.suspicionLevel = "medium" ∧
    analyzeBuyerScore freshFunding 0 1000 0 = 3/20 ∧
    analyzeBuyerPersisted freshFunding 0 1000 0 = false :=
  claim_C8_new_wallet freshOracle "W" "solana" 3 freshTraceResult freshFunding 0 1000 0
    rfl rfl (fun _ => rfl) (by omega) (by rfl) rfl rfl (by omega)

/-- C8 counterexample. A brand-new wallet with no funding edges and no
timing signal scores 0.15 in the fresh-buyer analysis — not the 0.20
wallet-age bonus the claim asserts. -/
theorem claim_C8_counterexample :
    analyzeBuyerScore freshFunding 0 1000 0 = 3/20 ∧ (3/20 : ℚ) ≠ 1/5 := by
  constructor
  · norm_num [analyzeBuyerScore, buyerAgeBonus, buyerFundingBonus, buyerTimingBonus,
      freshFunding, min_def]
  · norm_num

end KOLTracker
